import Mathlib

/-!
Verification of the ambulance waiting-list web API core
(`internal/ambulance_wl/impl_ambulance_waiting_list.go`).

The five HTTP handlers are embedded as pure functions from an `Ambulance`
aggregate to a mutation result `(updated aggregate or none, payload, status)`,
exactly the shape of the `mutate` callback each Go handler passes to
`updateAmbulanceFunc`.  The Go slice `Ambulance.WaitingList` may be `nil`,
which is distinct from an empty slice when marshalled to JSON, so the
aggregate stores an `Option (List WaitingListEntry)`; every Go slice
operation (`slices.IndexFunc`, `append`, indexing) treats a `nil` slice
exactly like an empty one, which is what `Ambulance.wl` provides.

`reconcileWaitingList` and `updateAmbulanceFunc` (the Update Orchestrator)
are code of this repository that is not among the excerpted files; they are
modelled from the specification (§4.4 and §4.2 respectively), as marked on
their doc comments.
-/

open List

/-- The waiting-list entry model (`WaitingListEntry`): `Id`, `PatientId`,
`WaitingSince` (a `time.Time`, modelled as nanoseconds since the epoch so
that the zero time is `0` and `t.After(time.Time{})` is `0 < t`), and
`EstimatedDurationMinutes` (an `int32`; no arithmetic is performed on it,
so overflow never matters and it is modelled as `Int`). -/
structure WaitingListEntry where
  id : String
  patientId : String
  waitingSince : Nat
  estimatedDurationMinutes : Int
  deriving Repr, DecidableEq

/-- The `Ambulance` aggregate root: `Id`, `Name` and the `WaitingList`
slice, `none` standing for a `nil` Go slice. -/
structure Ambulance where
  id : String
  name : String
  waitingList : Option (List WaitingListEntry)
  deriving Repr, DecidableEq

/-- A `nil` Go slice behaves like an empty one under iteration, indexing
and `append`; `wl` is the waiting list seen through that lens. -/
def Ambulance.wl (a : Ambulance) : List WaitingListEntry :=
  a.waitingList.getD []

/-- Response payloads: `empty` is Go `nil` (the 204 delete response),
`error` the ad-hoc `gin.H` status/message map, `entry` a single entry and
`entryList` a JSON array that is `null` exactly when the option is `none`. -/
inductive Payload where
  | empty : Payload
  | error (status : Nat) (message : String) : Payload
  | entry (e : WaitingListEntry) : Payload
  | entryList (l : Option (List WaitingListEntry)) : Payload
  deriving Repr, DecidableEq

/-- What a `mutate` callback hands back to `updateAmbulanceFunc`:
`(updatedAmbulanceOrNil, responsePayload, statusCode)`. -/
structure MutResult where
  ambulance : Option Ambulance
  payload : Payload
  status : Nat
  deriving Repr, DecidableEq

/-- Ordering relation of the reconciler: compare entries by
`waitingSince`. -/
def wsLE (a b : WaitingListEntry) : Prop :=
  a.waitingSince ≤ b.waitingSince

instance : DecidableRel wsLE := fun a b =>
  inferInstanceAs (Decidable (a.waitingSince ≤ b.waitingSince))

instance : IsTotal WaitingListEntry wsLE :=
  ⟨fun a b => Nat.le_total a.waitingSince b.waitingSince⟩

instance : IsTrans WaitingListEntry wsLE :=
  ⟨fun _ _ _ hab hbc => Nat.le_trans hab hbc⟩

/-- Modelled from the spec: `reconcileWaitingList` (§4.4 Waiting List
Reconciler), whose body is not among the excerpted files.  Per the spec it
stable-sorts the entries by `waitingSince` ascending, ties broken by
original insertion order, and is a pure function of the list contents. -/
def reconcileWaitingList (l : List WaitingListEntry) : List WaitingListEntry :=
  l.insertionSort wsLE

/-- Fallback used to totalise Go slice indexing; every indexing in the
handlers is proved in range, so this value is never produced. -/
def dummyEntry : WaitingListEntry :=
  ⟨"", "", 0, 0⟩

/-- `CreateWaitingListEntry`'s mutation.  `newId` stands for the
`uuid.NewString()` draw, `body` for the JSON-bound request body (`none`
when binding fails).  Go's `slices.IndexFunc` returns `-1` when nothing
matches; here `findIdx` returns the length instead, so "found" is
`idx < length` where Go tests `idx >= 0`. -/
def createWaitingListEntry (newId : String) (body : Option WaitingListEntry)
    (amb : Ambulance) : MutResult :=
  match body with
  | none => ⟨none, Payload.error 400 "Invalid request body", 400⟩
  | some entry0 =>
    if entry0.patientId = "" then
      ⟨none, Payload.error 400 "Patient ID is required", 400⟩
    else
      let entry := if entry0.id = "" ∨ entry0.id = "@new" then
        { entry0 with id := newId } else entry0
      let wl := amb.wl
      let conflictIndx := wl.findIdx fun waiting =>
        entry.id == waiting.id || entry.patientId == waiting.patientId
      if conflictIndx < wl.length then
        ⟨none, Payload.error 409 "Entry already exists", 409⟩
      else
        let wl2 := reconcileWaitingList (wl ++ [entry])
        let entryIndx := wl2.findIdx fun waiting => entry.id == waiting.id
        if entryIndx < wl2.length then
          ⟨some { amb with waitingList := some wl2 },
            Payload.entry (wl2.getD entryIndx dummyEntry), 200⟩
        else
          ⟨none, Payload.error 500 "Failed to save entry", 500⟩

/-- `DeleteWaitingListEntry`'s mutation; `entryId` is the path parameter.
`append(wl[:i], wl[i+1:]...)` is `eraseIdx i`. -/
def deleteWaitingListEntry (entryId : String) (amb : Ambulance) : MutResult :=
  if entryId = "" then
    ⟨none, Payload.error 400 "Entry ID is required", 400⟩
  else
    let wl := amb.wl
    let entryIndx := wl.findIdx fun waiting => entryId == waiting.id
    if entryIndx < wl.length then
      let wl2 := reconcileWaitingList (wl.eraseIdx entryIndx)
      ⟨some { amb with waitingList := some wl2 }, Payload.empty, 204⟩
    else
      ⟨none, Payload.error 404 "Entry not found", 404⟩

/-- `GetWaitingListEntries`'s mutation: replace a `nil` stored slice by an
empty one, return it with no aggregate (read-only). -/
def getWaitingListEntries (amb : Ambulance) : MutResult :=
  let result := match amb.waitingList with
    | none => []
    | some l => l
  ⟨none, Payload.entryList (some result), 200⟩

/-- `GetWaitingListEntry`'s mutation. -/
def getWaitingListEntry (entryId : String) (amb : Ambulance) : MutResult :=
  if entryId = "" then
    ⟨none, Payload.error 400 "Entry ID is required", 400⟩
  else
    let wl := amb.wl
    let entryIndx := wl.findIdx fun waiting => entryId == waiting.id
    if entryIndx < wl.length then
      ⟨none, Payload.entry (wl.getD entryIndx dummyEntry), 200⟩
    else
      ⟨none, Payload.error 404 "Entry not found", 404⟩

/-- The four in-place field assignments of `UpdateWaitingListEntry`
(lines 258-272): each request-body field overwrites the stored one only
when it is non-empty / after the zero time / strictly positive. -/
def mergeEntry (stored entry : WaitingListEntry) : WaitingListEntry :=
  { stored with
    patientId := if entry.patientId ≠ "" then entry.patientId else stored.patientId
    id := if entry.id ≠ "" then entry.id else stored.id
    waitingSince := if 0 < entry.waitingSince then entry.waitingSince else stored.waitingSince
    estimatedDurationMinutes :=
      if 0 < entry.estimatedDurationMinutes then entry.estimatedDurationMinutes
      else stored.estimatedDurationMinutes }

/-- `UpdateWaitingListEntry`'s mutation.  Note the response payload is read
at `entryIndx` — the index found before the merge — after
`reconcileWaitingList` has re-sorted the list. -/
def updateWaitingListEntry (body : Option WaitingListEntry) (entryId : String)
    (amb : Ambulance) : MutResult :=
  match body with
  | none => ⟨none, Payload.error 400 "Invalid request body", 400⟩
  | some entry =>
    if entryId = "" then
      ⟨none, Payload.error 400 "Entry ID is required", 400⟩
    else
      let wl := amb.wl
      let entryIndx := wl.findIdx fun waiting => entryId == waiting.id
      if entryIndx < wl.length then
        let merged := mergeEntry (wl.getD entryIndx dummyEntry) entry
        let wl2 := reconcileWaitingList (wl.set entryIndx merged)
        ⟨some { amb with waitingList := some wl2 },
          Payload.entry (wl2.getD entryIndx dummyEntry), 200⟩
      else
        ⟨none, Payload.error 404 "Entry not found", 404⟩

/-- The store holding one aggregate together with its opaque version
token (§4.1 Aggregate Store Gateway). -/
structure Store where
  ambulance : Ambulance
  version : Nat
  deriving Repr, DecidableEq

/-- Modelled from the spec: one attempt cycle of `updateAmbulanceFunc`
(§4.2 Update Orchestrator), starting from an already-loaded snapshot
`loaded` read at version `loadedVersion`.  A `none` aggregate from
`mutate` is read-only: no persistence.  A non-`none` aggregate is saved
conditionally: on version match the store advances; on mismatch the
aggregate is reloaded fresh and `mutate` re-run, up to `retries` more
times, after which Conflict is surfaced. -/
def runUpdateFrom (mutate : Ambulance → MutResult) (store : Store)
    (loaded : Ambulance) (loadedVersion : Nat) (retries : Nat) :
    Store × Payload × Nat :=
  let r := mutate loaded
  match r.ambulance with
  | none => (store, r.payload, r.status)
  | some a =>
    if loadedVersion = store.version then
      ({ ambulance := a, version := store.version + 1 }, r.payload, r.status)
    else
      match retries with
      | 0 => (store, Payload.error 409 "Version conflict", 409)
      | Nat.succ n => runUpdateFrom mutate store store.ambulance store.version n

/-- Modelled from the spec: `runUpdate(aggregateId, mutate)` — load the
aggregate and its version from the store, then run the attempt cycle. -/
def runUpdate (mutate : Ambulance → MutResult) (store : Store)
    (retries : Nat) : Store × Payload × Nat :=
  runUpdateFrom mutate store store.ambulance store.version retries

/-- Sample aggregate with an empty (non-`nil`) waiting list, used to
instantiate universally quantified statements at a concrete input. -/
def sampleAmb : Ambulance :=
  ⟨"a1", "Acute", some []⟩

/-- Sample create-request body with an empty id, used to instantiate
universally quantified statements at a concrete input. -/
def sampleBody : WaitingListEntry :=
  ⟨"", "P1", 0, 15⟩

/-- Invariant 1 of §3: no two entries share `id`. -/
def uniqueIds (l : List WaitingListEntry) : Prop :=
  (l.map (·.id)).Nodup

/-- Invariant 2 of §3: no two entries share `patientId`. -/
def uniquePatientIds (l : List WaitingListEntry) : Prop :=
  (l.map (·.patientId)).Nodup

instance (l : List WaitingListEntry) : Decidable (uniqueIds l) :=
  inferInstanceAs (Decidable (Nodup _))

instance (l : List WaitingListEntry) : Decidable (uniquePatientIds l) :=
  inferInstanceAs (Decidable (Nodup _))

/-! ### Basic facts about the model -/

@[simp]
theorem wl_some (i n : String) (l : List WaitingListEntry) :
    (Ambulance.mk i n (some l)).wl = l := rfl

@[simp]
theorem wl_none (i n : String) : (Ambulance.mk i n none).wl = [] := rfl

theorem reconcile_perm (l : List WaitingListEntry) :
    reconcileWaitingList l ~ l :=
  perm_insertionSort wsLE l

theorem reconcile_sorted (l : List WaitingListEntry) :
    Sorted wsLE (reconcileWaitingList l) :=
  sorted_insertionSort wsLE l

theorem reconcile_eq_of_sorted {l : List WaitingListEntry}
    (h : Sorted wsLE l) : reconcileWaitingList l = l :=
  h.insertionSort_eq

theorem mem_reconcile {x : WaitingListEntry} {l : List WaitingListEntry} :
    x ∈ reconcileWaitingList l ↔ x ∈ l :=
  (reconcile_perm l).mem_iff

theorem reconcile_length (l : List WaitingListEntry) :
    (reconcileWaitingList l).length = l.length :=
  (reconcile_perm l).length_eq

/-! ### C6 — idempotence of reconciliation -/

/-- C6: Idempotence of reconciliation: for every waiting list `L`
(in particular every `L` free of duplicate ids), `reconcile (reconcile L)`
equals `reconcile L`: stable-sorting an already sorted list is a no-op. -/
theorem reconcile_idempotent (l : List WaitingListEntry) :
    reconcileWaitingList (reconcileWaitingList l) = reconcileWaitingList l :=
  reconcile_eq_of_sorted (reconcile_sorted l)

/-! ### C10 — listing entries -/

/-- C10: `GetWaitingListEntries` returns status 200 with the waiting list
as an array; a `nil` or empty stored list yields the empty array (never
`null`, i.e. never `Payload.entryList none`), the mutation returns a `nil`
aggregate, and the orchestrator leaves the store untouched. -/
theorem get_entries_ok (amb : Ambulance) (store : Store) (retries : Nat)
    (hamb : store.ambulance = amb) :
    (getWaitingListEntries amb).status = 200
    ∧ (getWaitingListEntries amb).ambulance = none
    ∧ (getWaitingListEntries amb).payload = Payload.entryList (some amb.wl)
    ∧ (amb.waitingList = none ∨ amb.waitingList = some [] →
        (getWaitingListEntries amb).payload = Payload.entryList (some []))
    ∧ (runUpdate getWaitingListEntries store retries).1 = store := by
  subst hamb
  refine ⟨rfl, rfl, ?_, ?_, ?_⟩
  · cases h : store.ambulance.waitingList <;>
      simp [getWaitingListEntries, Ambulance.wl, h]
  · rintro (h | h) <;> simp [getWaitingListEntries, h]
  · cases retries <;> rfl

/-- Witness for C10 at a concrete ambulance whose stored list is `nil`. -/
theorem get_entries_ok_witness :
    (getWaitingListEntries ⟨"a1", "Acute", none⟩).status = 200
    ∧ (getWaitingListEntries ⟨"a1", "Acute", none⟩).ambulance = none
    ∧ (getWaitingListEntries ⟨"a1", "Acute", none⟩).payload
        = Payload.entryList (some (Ambulance.wl ⟨"a1", "Acute", none⟩))
    ∧ ((⟨"a1", "Acute", none⟩ : Ambulance).waitingList = none
        ∨ (⟨"a1", "Acute", none⟩ : Ambulance).waitingList = some [] →
        (getWaitingListEntries ⟨"a1", "Acute", none⟩).payload
          = Payload.entryList (some []))
    ∧ (runUpdate getWaitingListEntries ⟨⟨"a1", "Acute", none⟩, 7⟩ 3).1
        = ⟨⟨"a1", "Acute", none⟩, 7⟩ :=
  get_entries_ok ⟨"a1", "Acute", none⟩ ⟨⟨"a1", "Acute", none⟩, 7⟩ 3 rfl

/-! ### C9 — delete/get of an absent entry -/

/-- C9: `DeleteWaitingListEntry` and `GetWaitingListEntry` with a non-empty
`entryId` matching no stored entry both return status 404 with a `nil`
aggregate, so the orchestrator performs no write and the stored waiting
list is unchanged. -/
theorem delete_get_not_found (entryId : String) (amb : Ambulance)
    (store : Store) (retries : Nat)
    (hne : entryId ≠ "")
    (habsent : ∀ w ∈ amb.wl, entryId ≠ w.id)
    (hamb : store.ambulance = amb) :
    (deleteWaitingListEntry entryId amb).status = 404
    ∧ (deleteWaitingListEntry entryId amb).ambulance = none
    ∧ (getWaitingListEntry entryId amb).status = 404
    ∧ (getWaitingListEntry entryId amb).ambulance = none
    ∧ (runUpdate (deleteWaitingListEntry entryId) store retries).1 = store
    ∧ (runUpdate (getWaitingListEntry entryId) store retries).1 = store := by
  subst hamb
  have hfi : (store.ambulance.wl.findIdx fun w => entryId == w.id)
      = store.ambulance.wl.length :=
    findIdx_eq_length_of_false fun w hw => beq_eq_false_iff_ne.mpr (habsent w hw)
  have hnlt : ¬ (store.ambulance.wl.findIdx fun w => entryId == w.id)
      < store.ambulance.wl.length := by
    rw [hfi]; exact Nat.lt_irrefl _
  have hdel : (deleteWaitingListEntry entryId store.ambulance)
      = ⟨none, Payload.error 404 "Entry not found", 404⟩ := by
    rw [deleteWaitingListEntry, if_neg hne, if_neg hnlt]
  have hget : (getWaitingListEntry entryId store.ambulance)
      = ⟨none, Payload.error 404 "Entry not found", 404⟩ := by
    rw [getWaitingListEntry, if_neg hne, if_neg hnlt]
  refine ⟨by rw [hdel], by rw [hdel], by rw [hget], by rw [hget], ?_, ?_⟩ <;>
    · rw [runUpdate, runUpdateFrom.eq_def]
      simp only [hdel, hget]

/-- Witness for C9: deleting or fetching `entryId "X"` from a list holding
a single entry with id `"e1"`. -/
theorem delete_get_not_found_witness :
    (deleteWaitingListEntry "X" ⟨"a1", "Acute", some [⟨"e1", "P1", 0, 5⟩]⟩).status = 404
    ∧ (deleteWaitingListEntry "X" ⟨"a1", "Acute", some [⟨"e1", "P1", 0, 5⟩]⟩).ambulance = none
    ∧ (getWaitingListEntry "X" ⟨"a1", "Acute", some [⟨"e1", "P1", 0, 5⟩]⟩).status = 404
    ∧ (getWaitingListEntry "X" ⟨"a1", "Acute", some [⟨"e1", "P1", 0, 5⟩]⟩).ambulance = none
    ∧ (runUpdate (deleteWaitingListEntry "X")
        ⟨⟨"a1", "Acute", some [⟨"e1", "P1", 0, 5⟩]⟩, 4⟩ 3).1
        = ⟨⟨"a1", "Acute", some [⟨"e1", "P1", 0, 5⟩]⟩, 4⟩
    ∧ (runUpdate (getWaitingListEntry "X")
        ⟨⟨"a1", "Acute", some [⟨"e1", "P1", 0, 5⟩]⟩, 4⟩ 3).1
        = ⟨⟨"a1", "Acute", some [⟨"e1", "P1", 0, 5⟩]⟩, 4⟩ :=
  delete_get_not_found "X" ⟨"a1", "Acute", some [⟨"e1", "P1", 0, 5⟩]⟩
    ⟨⟨"a1", "Acute", some [⟨"e1", "P1", 0, 5⟩]⟩, 4⟩ 3
    (by decide) (by decide) rfl

/-! ### C1 — conflict rejection leaves state unchanged -/

/-- C1: when the candidate entry (after id generation) shares an `id` or a
`patientId` with some entry already in the waiting list,
`CreateWaitingListEntry` returns status 409 with a `nil` aggregate, so the
orchestrator performs no write and the stored waiting list is exactly what
it was before the attempt. -/
theorem create_conflict_unchanged (newId : String) (entry0 : WaitingListEntry)
    (amb : Ambulance) (store : Store) (retries : Nat)
    (hpid : entry0.patientId ≠ "")
    (hconf : ∃ w ∈ amb.wl,
      (if entry0.id = "" ∨ entry0.id = "@new" then newId else entry0.id) = w.id
        ∨ entry0.patientId = w.patientId)
    (hamb : store.ambulance = amb) :
    (createWaitingListEntry newId (some entry0) amb).status = 409
    ∧ (createWaitingListEntry newId (some entry0) amb).ambulance = none
    ∧ (runUpdate (createWaitingListEntry newId (some entry0)) store retries).1
        = store := by
  subst hamb
  set entry := if entry0.id = "" ∨ entry0.id = "@new" then
    { entry0 with id := newId } else entry0 with hentry
  have hid : entry.id = if entry0.id = "" ∨ entry0.id = "@new" then newId
      else entry0.id := by
    rw [hentry]; split <;> rfl
  have hpid2 : entry.patientId = entry0.patientId := by
    rw [hentry]; split <;> rfl
  have hlt : (store.ambulance.wl.findIdx fun waiting =>
      entry.id == waiting.id || entry.patientId == waiting.patientId)
      < store.ambulance.wl.length := by
    apply findIdx_lt_length_of_exists
    obtain ⟨w, hw, hcase⟩ := hconf
    refine ⟨w, hw, ?_⟩
    rw [Bool.or_eq_true, beq_iff_eq, beq_iff_eq, hid, hpid2]
    exact hcase
  have hc : (createWaitingListEntry newId (some entry0) store.ambulance)
      = ⟨none, Payload.error 409 "Entry already exists", 409⟩ := by
    rw [createWaitingListEntry]
    simp only [← hentry]
    rw [if_neg hpid, if_pos hlt]
  refine ⟨by rw [hc], by rw [hc], ?_⟩
  rw [runUpdate, runUpdateFrom.eq_def]
  simp only [hc]

/-- Witness for C1: creating a second entry with the already-waiting
patient `"P1"` against a single-entry list. -/
theorem create_conflict_unchanged_witness :
    (createWaitingListEntry "gen9" (some ⟨"", "P1", 0, 10⟩)
      ⟨"a1", "Acute", some [⟨"e1", "P1", 0, 5⟩]⟩).status = 409
    ∧ (createWaitingListEntry "gen9" (some ⟨"", "P1", 0, 10⟩)
      ⟨"a1", "Acute", some [⟨"e1", "P1", 0, 5⟩]⟩).ambulance = none
    ∧ (runUpdate (createWaitingListEntry "gen9" (some ⟨"", "P1", 0, 10⟩))
        ⟨⟨"a1", "Acute", some [⟨"e1", "P1", 0, 5⟩]⟩, 2⟩ 3).1
        = ⟨⟨"a1", "Acute", some [⟨"e1", "P1", 0, 5⟩]⟩, 2⟩ :=
  create_conflict_unchanged "gen9" ⟨"", "P1", 0, 10⟩
    ⟨"a1", "Acute", some [⟨"e1", "P1", 0, 5⟩]⟩
    ⟨⟨"a1", "Acute", some [⟨"e1", "P1", 0, 5⟩]⟩, 2⟩ 3
    (by decide) (by decide) rfl

/-! ### C5 — update response payload is read at a stale index -/

/-- C5: evaluation exhibiting that `UpdateWaitingListEntry` does NOT always
return the updated entry.  Updating entry `"a"` (waiting since 1) to
`waitingSince = 5` re-sorts the list so that `"a"` moves behind `"b"`, yet
the payload is read at the pre-reconciliation index 0: the response is
status 200 carrying entry `"b"` — an entry the request never touched —
while the updated entry `"a"` sits at index 1 of the stored list. -/
theorem update_payload_stale_index :
    updateWaitingListEntry (some ⟨"", "", 5, 0⟩) "a"
      ⟨"a1", "Acute", some [⟨"a", "p1", 1, 5⟩, ⟨"b", "p2", 2, 5⟩]⟩
    = ⟨some ⟨"a1", "Acute", some [⟨"b", "p2", 2, 5⟩, ⟨"a", "p1", 5, 5⟩]⟩,
        Payload.entry ⟨"b", "p2", 2, 5⟩, 200⟩
    ∧ (⟨"b", "p2", 2, 5⟩ : WaitingListEntry).id ≠ "a" := by
  exact ⟨by decide, by decide⟩

/-! ### C2 — uniqueness invariant -/

/-- C2 counterexample: from a waiting list satisfying both uniqueness
invariants, updating entry `"b"` with a body whose `id` field is `"a"`
produces a stored final state in which two entries share the id `"a"` —
`UpdateWaitingListEntry` does not conflict-check the identity overwrite,
so the claimed invariant fails for the update operation. -/
theorem uniqueness_counterexample :
    uniqueIds [⟨"a", "p1", 1, 5⟩, ⟨"b", "p2", 2, 5⟩]
    ∧ uniquePatientIds [⟨"a", "p1", 1, 5⟩, ⟨"b", "p2", 2, 5⟩]
    ∧ (updateWaitingListEntry (some ⟨"a", "", 0, 0⟩) "b"
        ⟨"a1", "Acute", some [⟨"a", "p1", 1, 5⟩, ⟨"b", "p2", 2, 5⟩]⟩).ambulance
      = some ⟨"a1", "Acute", some [⟨"a", "p1", 1, 5⟩, ⟨"a", "p2", 2, 5⟩]⟩
    ∧ ¬ uniqueIds [⟨"a", "p1", 1, 5⟩, ⟨"a", "p2", 2, 5⟩] := by
  exact ⟨by decide, by decide, by decide, by decide⟩

/-! ### C4 — partial-update merge semantics -/

/-- C4: on an existing entry, `UpdateWaitingListEntry` stores the result of
merging the request body into the stored entry, and each field of the
stored entry is overwritten by the body's value exactly when that value is
non-default: `patientId` and `id` when non-empty, `waitingSince` when a
non-zero timestamp, `estimatedDurationMinutes` when strictly positive.  A
body supplying only `estimatedDurationMinutes` changes nothing else. -/
theorem update_partial_merge (entry : WaitingListEntry) (entryId : String)
    (amb : Ambulance)
    (hne : entryId ≠ "")
    (hfound : ∃ w ∈ amb.wl, entryId = w.id) :
    (updateWaitingListEntry (some entry) entryId amb).status = 200
    ∧ (updateWaitingListEntry (some entry) entryId amb).ambulance
      = some { amb with waitingList := some (reconcileWaitingList
          (amb.wl.set (amb.wl.findIdx fun w => entryId == w.id)
            (mergeEntry (amb.wl.getD (amb.wl.findIdx fun w => entryId == w.id)
              dummyEntry) entry))) }
    ∧ (∀ stored : WaitingListEntry,
        (entry.patientId ≠ "" → (mergeEntry stored entry).patientId = entry.patientId)
      ∧ (entry.patientId = "" → (mergeEntry stored entry).patientId = stored.patientId)
      ∧ (entry.id ≠ "" → (mergeEntry stored entry).id = entry.id)
      ∧ (entry.id = "" → (mergeEntry stored entry).id = stored.id)
      ∧ (0 < entry.waitingSince → (mergeEntry stored entry).waitingSince = entry.waitingSince)
      ∧ (entry.waitingSince = 0 → (mergeEntry stored entry).waitingSince = stored.waitingSince)
      ∧ (0 < entry.estimatedDurationMinutes →
          (mergeEntry stored entry).estimatedDurationMinutes
            = entry.estimatedDurationMinutes)
      ∧ (entry.estimatedDurationMinutes ≤ 0 →
          (mergeEntry stored entry).estimatedDurationMinutes
            = stored.estimatedDurationMinutes))
    ∧ (entry.patientId = "" → entry.id = "" → entry.waitingSince = 0 →
        ∀ stored : WaitingListEntry, mergeEntry stored entry
          = { stored with estimatedDurationMinutes :=
              if 0 < entry.estimatedDurationMinutes then
                entry.estimatedDurationMinutes
              else stored.estimatedDurationMinutes }) := by
  have hlt : (amb.wl.findIdx fun w => entryId == w.id) < amb.wl.length := by
    apply findIdx_lt_length_of_exists
    obtain ⟨w, hw, hww⟩ := hfound
    exact ⟨w, hw, beq_iff_eq.mpr hww⟩
  have hupd : updateWaitingListEntry (some entry) entryId amb
      = ⟨some { amb with waitingList := some (reconcileWaitingList
          (amb.wl.set (amb.wl.findIdx fun w => entryId == w.id)
            (mergeEntry (amb.wl.getD (amb.wl.findIdx fun w => entryId == w.id)
              dummyEntry) entry))) },
        Payload.entry ((reconcileWaitingList
          (amb.wl.set (amb.wl.findIdx fun w => entryId == w.id)
            (mergeEntry (amb.wl.getD (amb.wl.findIdx fun w => entryId == w.id)
              dummyEntry) entry))).getD
          (amb.wl.findIdx fun w => entryId == w.id) dummyEntry), 200⟩ := by
    rw [updateWaitingListEntry]
    simp only []
    rw [if_neg hne, if_pos hlt]
  refine ⟨by rw [hupd], by rw [hupd], ?_, ?_⟩
  · intro stored
    refine ⟨?_, ?_, ?_, ?_, ?_, ?_, ?_, ?_⟩ <;> intro h <;>
      simp [mergeEntry, h, Nat.lt_irrefl, not_lt.mpr]
  · intro h1 h2 h3 stored
    simp [mergeEntry, h1, h2, h3]

/-- Witness for C4: updating the single stored entry with a body carrying
only `estimatedDurationMinutes = 30` changes that field alone. -/
theorem update_partial_merge_witness :
    (updateWaitingListEntry (some ⟨"", "", 0, 30⟩) "e1"
      ⟨"a1", "Acute", some [⟨"e1", "P1", 3, 15⟩]⟩).ambulance
      = some ⟨"a1", "Acute", some [⟨"e1", "P1", 3, 30⟩]⟩
    ∧ mergeEntry ⟨"e1", "P1", 3, 15⟩ ⟨"", "", 0, 30⟩ = ⟨"e1", "P1", 3, 30⟩ := by
  have h := update_partial_merge ⟨"", "", 0, 30⟩ "e1"
    ⟨"a1", "Acute", some [⟨"e1", "P1", 3, 15⟩]⟩ (by decide)
    ⟨⟨"e1", "P1", 3, 15⟩, by decide, by decide⟩
  refine ⟨?_, by decide⟩
  rw [h.2.1]
  decide

/-! ### C8 — create with generated id -/

/-- When exactly one element of a list satisfies the predicate, indexing at
`findIdx` (as the create handler does to read back the saved entry) yields
that element. -/
theorem getD_findIdx_eq_of_unique {l : List WaitingListEntry}
    {p : WaitingListEntry → Bool} {e : WaitingListEntry}
    (he : e ∈ l) (hpe : p e = true)
    (huniq : ∀ w ∈ l, p w = true → w = e) :
    l.getD (l.findIdx p) dummyEntry = e := by
  have hlt : l.findIdx p < l.length := findIdx_lt_length_of_exists ⟨e, he, hpe⟩
  have hp : p (l.get ⟨l.findIdx p, hlt⟩) = true := findIdx_getElem
  have hmem : l.get ⟨l.findIdx p, hlt⟩ ∈ l := getElem_mem hlt
  have hee := huniq _ hmem hp
  rw [getD_eq_getElem?_getD, getElem?_eq_getElem hlt]
  exact hee

/-- C8: a create request with a non-empty `patientId` and an `id` that is
empty or the sentinel `"@new"` gets the freshly generated id `newId`
assigned; when that id and the patient are not already in the waiting
list, the handler persists the reconciled list containing the new entry
and returns status 200 whose payload is the created entry carrying the
generated (non-empty) id. -/
theorem create_generates_id (newId : String) (entry0 : WaitingListEntry)
    (amb : Ambulance)
    (hpid : entry0.patientId ≠ "")
    (hgen : entry0.id = "" ∨ entry0.id = "@new")
    (hnew : newId ≠ "")
    (hnoconf : ∀ w ∈ amb.wl, newId ≠ w.id ∧ entry0.patientId ≠ w.patientId) :
    (createWaitingListEntry newId (some entry0) amb).status = 200
    ∧ (createWaitingListEntry newId (some entry0) amb).payload
        = Payload.entry { entry0 with id := newId }
    ∧ ({ entry0 with id := newId } : WaitingListEntry).id = newId
    ∧ newId ≠ ""
    ∧ (createWaitingListEntry newId (some entry0) amb).ambulance
        = some { amb with waitingList := some (reconcileWaitingList
            (amb.wl ++ [{ entry0 with id := newId }])) } := by
  set entry : WaitingListEntry := { entry0 with id := newId } with hentrydef
  have hids : entry.id = newId := rfl
  have hpids : entry.patientId = entry0.patientId := rfl
  have hnc : ¬ (amb.wl.findIdx fun waiting =>
      entry.id == waiting.id || entry.patientId == waiting.patientId)
      < amb.wl.length := by
    rw [findIdx_eq_length_of_false]
    · exact Nat.lt_irrefl _
    · intro w hw
      rw [Bool.or_eq_false_iff, beq_eq_false_iff_ne, beq_eq_false_iff_ne,
        hids, hpids]
      exact hnoconf w hw
  have hmem : entry ∈ reconcileWaitingList (amb.wl ++ [entry]) := by
    rw [mem_reconcile, mem_append]
    exact Or.inr (mem_singleton_self entry)
  have hfound : (reconcileWaitingList (amb.wl ++ [entry])).findIdx
      (fun waiting => entry.id == waiting.id)
      < (reconcileWaitingList (amb.wl ++ [entry])).length :=
    findIdx_lt_length_of_exists ⟨entry, hmem, beq_self_eq_true _⟩
  have hback : (reconcileWaitingList (amb.wl ++ [entry])).getD
      ((reconcileWaitingList (amb.wl ++ [entry])).findIdx
        (fun waiting => entry.id == waiting.id)) dummyEntry = entry := by
    apply getD_findIdx_eq_of_unique (p := fun waiting => entry.id == waiting.id)
      hmem (beq_self_eq_true entry.id)
    intro w hw hpw
    rw [mem_reconcile, mem_append] at hw
    have hwid : entry.id = w.id := beq_iff_eq.mp hpw
    rcases hw with hw | hw
    · exact absurd (hids ▸ hwid) (hnoconf w hw).1
    · exact mem_singleton.mp hw
  have hcreate : createWaitingListEntry newId (some entry0) amb
      = ⟨some { amb with waitingList := some (reconcileWaitingList
            (amb.wl ++ [entry])) },
          Payload.entry ((reconcileWaitingList (amb.wl ++ [entry])).getD
            ((reconcileWaitingList (amb.wl ++ [entry])).findIdx
              (fun waiting => entry.id == waiting.id)) dummyEntry), 200⟩ := by
    rw [createWaitingListEntry]
    simp only []
    rw [if_neg hpid, if_pos hgen, ← hentrydef, if_neg hnc, if_pos hfound]
  refine ⟨by rw [hcreate], ?_, hids, hnew, by rw [hcreate]⟩
  rw [hcreate]
  simp only [hback]

/-- Witness for C8 (§8 Scenario 1): creating patient `"P1"` with an empty
id in an empty waiting list yields 200 and the generated id. -/
theorem create_generates_id_witness :
    (createWaitingListEntry "b27a" (some sampleBody) sampleAmb).status = 200
    ∧ (createWaitingListEntry "b27a" (some sampleBody) sampleAmb).payload
        = Payload.entry { sampleBody with id := "b27a" }
    ∧ ({ sampleBody with id := "b27a" } : WaitingListEntry).id = "b27a"
    ∧ ("b27a" : String) ≠ ""
    ∧ (createWaitingListEntry "b27a" (some sampleBody) sampleAmb).ambulance
        = some { sampleAmb with waitingList := some (reconcileWaitingList
            (sampleAmb.wl ++ [{ sampleBody with id := "b27a" }])) } :=
  create_generates_id "b27a" sampleBody sampleAmb
    (by decide) (Or.inl rfl) (by decide) (by decide)

/-! ### Inversion of the mutating handlers on their success paths -/

/-- A delete that hands back an aggregate came from the found branch: the
stored list becomes the reconciled erasure at the found index. -/
theorem delete_ambulance_some {entryId : String} {amb a' : Ambulance}
    (h : (deleteWaitingListEntry entryId amb).ambulance = some a') :
    entryId ≠ ""
    ∧ (amb.wl.findIdx fun waiting => entryId == waiting.id) < amb.wl.length
    ∧ a' = { amb with waitingList := some (reconcileWaitingList
        (amb.wl.eraseIdx (amb.wl.findIdx fun waiting => entryId == waiting.id))) } := by
  simp only [deleteWaitingListEntry] at h
  split at h
  · simp at h
  · split at h
    · next hne hlt =>
      simp only [Option.some.injEq] at h
      exact ⟨hne, hlt, h.symm⟩
    · simp at h

/-- An update that hands back an aggregate came from the found branch: the
stored list becomes the reconciled `set` of the merged entry at the found
index. -/
theorem update_ambulance_some {body : Option WaitingListEntry}
    {entryId : String} {amb a' : Ambulance}
    (h : (updateWaitingListEntry body entryId amb).ambulance = some a') :
    ∃ entry, body = some entry ∧ entryId ≠ ""
    ∧ (amb.wl.findIdx fun waiting => entryId == waiting.id) < amb.wl.length
    ∧ a' = { amb with waitingList := some (reconcileWaitingList
        (amb.wl.set (amb.wl.findIdx fun waiting => entryId == waiting.id)
          (mergeEntry (amb.wl.getD (amb.wl.findIdx fun waiting => entryId == waiting.id)
            dummyEntry) entry))) } := by
  cases body with
  | none => simp [updateWaitingListEntry] at h
  | some entry =>
    refine ⟨entry, rfl, ?_⟩
    simp only [updateWaitingListEntry] at h
    split at h
    · simp at h
    · split at h
      · next hne hlt =>
        simp only [Option.some.injEq] at h
        exact ⟨hne, hlt, h.symm⟩
      · simp at h


/-- A create that hands back an aggregate came from the success branch:
the request body bound, the `patientId` was non-empty, neither the
(possibly generated) id nor the patient was already waiting, and the
stored list becomes the reconciled append of the candidate entry. -/
theorem create_ambulance_some {newId : String} {body : Option WaitingListEntry}
    {amb a' : Ambulance}
    (h : (createWaitingListEntry newId body amb).ambulance = some a') :
    ∃ entry0, body = some entry0 ∧ entry0.patientId ≠ ""
    ∧ ∃ entry, entry = (if entry0.id = "" ∨ entry0.id = "@new" then
        { entry0 with id := newId } else entry0)
    ∧ (∀ w ∈ amb.wl, entry.id ≠ w.id ∧ entry.patientId ≠ w.patientId)
    ∧ a' = { amb with waitingList := some (reconcileWaitingList
        (amb.wl ++ [entry])) } := by
  cases body with
  | none => simp [createWaitingListEntry] at h
  | some entry0 =>
    refine ⟨entry0, rfl, ?_⟩
    simp only [createWaitingListEntry] at h
    split at h
    · simp at h
    · next hp =>
      refine ⟨hp, ?_⟩
      split at h
      · next hgen =>
        rw [if_pos hgen]
        split at h
        · simp at h
        · next hnc =>
          split at h
          · next hf =>
            simp only [Option.some.injEq] at h
            refine ⟨_, rfl, ?_, h.symm⟩
            intro w hw
            rw [findIdx_lt_length] at hnc
            push_neg at hnc
            have h2 := hnc w hw
            simp only [ne_eq, Bool.or_eq_true, beq_iff_eq, not_or] at h2
            exact h2
          · simp at h
      · next hgen =>
        rw [if_neg hgen]
        split at h
        · simp at h
        · next hnc =>
          split at h
          · next hf =>
            simp only [Option.some.injEq] at h
            refine ⟨_, rfl, ?_, h.symm⟩
            intro w hw
            rw [findIdx_lt_length] at hnc
            push_neg at hnc
            have h2 := hnc w hw
            simp only [ne_eq, Bool.or_eq_true, beq_iff_eq, not_or] at h2
            exact h2
          · simp at h

/-! ### C7 — ordering invariant -/

/-- C7: every final waiting-list state produced by a create, update or
delete mutation is sorted by `waitingSince` ascending, and reconciliation
is stable: any subsequence already in `waitingSince` order — in
particular the entries of any tied `waitingSince` group, in their
original insertion order — reappears as a subsequence of the reconciled
list. -/
theorem ordering_invariant :
    (∀ (newId : String) (body : Option WaitingListEntry) (amb a' : Ambulance),
      (createWaitingListEntry newId body amb).ambulance = some a' →
      Sorted wsLE a'.wl)
    ∧ (∀ (body : Option WaitingListEntry) (entryId : String) (amb a' : Ambulance),
      (updateWaitingListEntry body entryId amb).ambulance = some a' →
      Sorted wsLE a'.wl)
    ∧ (∀ (entryId : String) (amb a' : Ambulance),
      (deleteWaitingListEntry entryId amb).ambulance = some a' →
      Sorted wsLE a'.wl)
    ∧ (∀ (l c : List WaitingListEntry), c.Pairwise wsLE → c <+ l →
      c <+ reconcileWaitingList l) := by
  refine ⟨?_, ?_, ?_, ?_⟩
  · intro newId body amb a' h
    obtain ⟨e0, -, -, e, -, -, ha⟩ := create_ambulance_some h
    rw [ha]
    exact reconcile_sorted _
  · intro body entryId amb a' h
    obtain ⟨e, -, -, -, ha⟩ := update_ambulance_some h
    rw [ha]
    exact reconcile_sorted _
  · intro entryId amb a' h
    obtain ⟨-, -, ha⟩ := delete_ambulance_some h
    rw [ha]
    exact reconcile_sorted _
  · intro l c hc hs
    exact sublist_insertionSort hc hs

/-- Witness for C7: each conjunct applied at a concrete input — a create
into the sample empty list, an update and a delete on a one-entry list,
and stability on a concrete two-entry `waitingSince` tie. -/
theorem ordering_invariant_witness :
    Sorted wsLE (Ambulance.wl (Ambulance.mk "a1" "Acute"
      (some [⟨"b27a", "P1", 0, 15⟩])))
    ∧ Sorted wsLE (Ambulance.wl (Ambulance.mk "a1" "Acute"
        (some (reconcileWaitingList [⟨"e1", "P1", 3, 30⟩]))))
    ∧ Sorted wsLE (Ambulance.wl (Ambulance.mk "a1" "Acute"
        (some (reconcileWaitingList []))))
    ∧ [⟨"x", "P1", 7, 1⟩, ⟨"y", "P2", 7, 2⟩]
        <+ reconcileWaitingList [⟨"x", "P1", 7, 1⟩, ⟨"y", "P2", 7, 2⟩] := by
  refine ⟨?_, ?_, ?_, ?_⟩
  · exact ordering_invariant.1 "b27a" (some sampleBody) sampleAmb
      ⟨"a1", "Acute", some [⟨"b27a", "P1", 0, 15⟩]⟩ (by decide)
  · exact ordering_invariant.2.1 (some ⟨"", "", 0, 30⟩) "e1"
      ⟨"a1", "Acute", some [⟨"e1", "P1", 3, 15⟩]⟩ _ (by decide)
  · exact ordering_invariant.2.2.1 "e1"
      ⟨"a1", "Acute", some [⟨"e1", "P1", 3, 15⟩]⟩ _ (by decide)
  · exact ordering_invariant.2.2.2 _ _ (by decide) (by decide)

/-! ### C2 — uniqueness: helper lemmas and the amended claim -/

/-- Permutations preserve invariant 1. -/
theorem uniqueIds_perm {l l' : List WaitingListEntry} (h : l ~ l') :
    (uniqueIds l ↔ uniqueIds l') :=
  (h.map _).nodup_iff

/-- Permutations preserve invariant 2. -/
theorem uniquePatientIds_perm {l l' : List WaitingListEntry} (h : l ~ l') :
    (uniquePatientIds l ↔ uniquePatientIds l') :=
  (h.map _).nodup_iff

/-- Appending an entry whose key clashes with no existing one keeps the
mapped keys duplicate-free. -/
theorem nodup_map_append_singleton {α β : Type} {l : List α} {e : α} {f : α → β}
    (hl : (l.map f).Nodup) (he : ∀ w ∈ l, f e ≠ f w) :
    ((l ++ [e]).map f).Nodup := by
  rw [map_append]
  refine Nodup.append hl (nodup_singleton _) ?_
  intro a ha hb
  rw [map_singleton, mem_singleton] at hb
  subst hb
  obtain ⟨w, hw, hfw⟩ := mem_map.mp ha
  exact he w hw hfw.symm

/-- Removing an entry keeps the mapped keys duplicate-free. -/
theorem nodup_map_eraseIdx {α β : Type} {l : List α} {i : Nat} {f : α → β}
    (hl : (l.map f).Nodup) : ((l.eraseIdx i).map f).Nodup :=
  hl.sublist ((eraseIdx_sublist l i).map f)

/-- Overwriting position `i` with a value that differs from every element
at a position other than `i` keeps the list duplicate-free. -/
theorem nodup_set_of_ne {α : Type} {l : List α} {i : Nat} {y : α}
    (hl : l.Nodup)
    (hy : ∀ j (hj : j < l.length), j ≠ i → y ≠ l.get ⟨j, hj⟩) :
    (l.set i y).Nodup := by
  rw [nodup_iff_injective_getElem] at hl ⊢
  intro a b heq
  obtain ⟨a, hA⟩ := a
  obtain ⟨b, hB⟩ := b
  have hA2 : a < l.length := by simpa using hA
  have hB2 : b < l.length := by simpa using hB
  simp only [getElem_set] at heq
  by_cases hai : i = a <;> by_cases hbi : i = b
  · exact Fin.ext (hai.symm.trans hbi)
  · rw [if_pos hai, if_neg hbi] at heq
    exact absurd heq (hy b hB2 fun h => hbi h.symm)
  · rw [if_neg hai, if_pos hbi] at heq
    exact absurd heq.symm (hy a hA2 fun h => hai h.symm)
  · rw [if_neg hai, if_neg hbi] at heq
    have hab : (⟨a, hA2⟩ : Fin l.length) = ⟨b, hB2⟩ := hl heq
    exact Fin.ext (show a = b from congrArg Fin.val hab)

/-- C2 (amended): the uniqueness invariants are preserved by create (the
conflict check guarantees the new entry clashes with nobody), by delete,
and by the read-only get/list operations; for update they are preserved
exactly under the proviso the counterexample forces — the merged entry's
`id` and `patientId` must not coincide with those of a different stored
entry, which the handler does not itself check. -/
theorem uniqueness_amended :
    (∀ (newId : String) (body : Option WaitingListEntry) (amb a' : Ambulance),
      uniqueIds amb.wl → uniquePatientIds amb.wl →
      (createWaitingListEntry newId body amb).ambulance = some a' →
      uniqueIds a'.wl ∧ uniquePatientIds a'.wl)
    ∧ (∀ (entryId : String) (amb a' : Ambulance),
      uniqueIds amb.wl → uniquePatientIds amb.wl →
      (deleteWaitingListEntry entryId amb).ambulance = some a' →
      uniqueIds a'.wl ∧ uniquePatientIds a'.wl)
    ∧ (∀ (entry : WaitingListEntry) (entryId : String) (amb a' : Ambulance),
      uniqueIds amb.wl → uniquePatientIds amb.wl →
      (∀ j (hj : j < amb.wl.length),
          j ≠ (amb.wl.findIdx fun waiting => entryId == waiting.id) →
          (mergeEntry (amb.wl.getD (amb.wl.findIdx fun waiting => entryId == waiting.id)
            dummyEntry) entry).id ≠ (amb.wl.get ⟨j, hj⟩).id
          ∧ (mergeEntry (amb.wl.getD (amb.wl.findIdx fun waiting => entryId == waiting.id)
            dummyEntry) entry).patientId ≠ (amb.wl.get ⟨j, hj⟩).patientId) →
      (updateWaitingListEntry (some entry) entryId amb).ambulance = some a' →
      uniqueIds a'.wl ∧ uniquePatientIds a'.wl)
    ∧ (∀ amb, (getWaitingListEntries amb).ambulance = none)
    ∧ (∀ (entryId : String) (amb : Ambulance),
      (getWaitingListEntry entryId amb).ambulance = none) := by
  refine ⟨?_, ?_, ?_, fun amb => rfl, ?_⟩
  · intro newId body amb a' hid hpid h
    obtain ⟨e0, -, -, e, -, hconf, ha⟩ := create_ambulance_some h
    subst ha
    simp only [wl_some]
    rw [uniqueIds_perm (reconcile_perm _), uniquePatientIds_perm (reconcile_perm _)]
    exact ⟨nodup_map_append_singleton hid fun w hw => (hconf w hw).1,
      nodup_map_append_singleton hpid fun w hw => (hconf w hw).2⟩
  · intro entryId amb a' hid hpid h
    obtain ⟨-, -, ha⟩ := delete_ambulance_some h
    subst ha
    simp only [wl_some]
    rw [uniqueIds_perm (reconcile_perm _), uniquePatientIds_perm (reconcile_perm _)]
    exact ⟨nodup_map_eraseIdx hid, nodup_map_eraseIdx hpid⟩
  · intro entry entryId amb a' hid hpid hcond h
    obtain ⟨e2, he2, -, hlt, ha⟩ := update_ambulance_some h
    rw [Option.some.injEq] at he2
    subst he2
    subst ha
    simp only [wl_some]
    rw [uniqueIds_perm (reconcile_perm _), uniquePatientIds_perm (reconcile_perm _)]
    constructor
    · show ((amb.wl.set _ _).map (·.id)).Nodup
      rw [map_set]
      apply nodup_set_of_ne hid
      intro j hj hji
      have hj2 : j < amb.wl.length := by simpa using hj
      have hcj := (hcond j hj2 hji).1
      simpa using hcj
    · show ((amb.wl.set _ _).map (·.patientId)).Nodup
      rw [map_set]
      apply nodup_set_of_ne hpid
      intro j hj hji
      have hj2 : j < amb.wl.length := by simpa using hj
      have hcj := (hcond j hj2 hji).2
      simpa using hcj
  · intro entryId amb
    simp only [getWaitingListEntry]
    split
    · rfl
    · split <;> rfl

/-- Per attempt sequence the orchestrator persists at most one write: the
store either comes back untouched or with exactly one version advance. -/
theorem runUpdateFrom_writes_at_most_once (mutate : Ambulance → MutResult)
    (store : Store) (retries : Nat) : ∀ (loaded : Ambulance) (lv : Nat),
    (runUpdateFrom mutate store loaded lv retries).1 = store
      ∨ (runUpdateFrom mutate store loaded lv retries).1.version
          = store.version + 1 := by
  induction retries with
  | zero =>
    intro loaded lv
    rw [runUpdateFrom.eq_def]
    cases hm : (mutate loaded).ambulance with
    | none => simp only [hm]; exact Or.inl trivial
    | some a =>
      simp only [hm]
      by_cases hv : lv = store.version
      · rw [if_pos hv]; exact Or.inr rfl
      · rw [if_neg hv]; exact Or.inl rfl
  | succ n ih =>
    intro loaded lv
    rw [runUpdateFrom.eq_def]
    cases hm : (mutate loaded).ambulance with
    | none => simp only [hm]; exact Or.inl trivial
    | some a =>
      simp only [hm]
      by_cases hv : lv = store.version
      · rw [if_pos hv]; exact Or.inr rfl
      · rw [if_neg hv]; exact ih store.ambulance store.version

/-- Evaluation of `UpdateWaitingListEntry` on the found path. -/
theorem update_found_eq (entry : WaitingListEntry) (entryId : String)
    (amb : Ambulance)
    (hne : entryId ≠ "")
    (hlt : (amb.wl.findIdx fun waiting => entryId == waiting.id) < amb.wl.length) :
    updateWaitingListEntry (some entry) entryId amb
      = ⟨some { amb with waitingList := some (reconcileWaitingList
            (amb.wl.set (amb.wl.findIdx fun waiting => entryId == waiting.id)
              (mergeEntry (amb.wl.getD (amb.wl.findIdx fun waiting => entryId == waiting.id)
                dummyEntry) entry))) },
          Payload.entry ((reconcileWaitingList
            (amb.wl.set (amb.wl.findIdx fun waiting => entryId == waiting.id)
              (mergeEntry (amb.wl.getD (amb.wl.findIdx fun waiting => entryId == waiting.id)
                dummyEntry) entry))).getD
            (amb.wl.findIdx fun waiting => entryId == waiting.id) dummyEntry), 200⟩ := by
  rw [updateWaitingListEntry]
  simp only []
  rw [if_neg hne, if_pos hlt]

/-- A two-element list with non-decreasing `waitingSince` is sorted. -/
theorem sorted_pair {x y : WaitingListEntry}
    (h : x.waitingSince ≤ y.waitingSince) : Sorted wsLE [x, y] := by
  refine sorted_cons.mpr ⟨?_, sorted_singleton y⟩
  intro b hb
  rw [mem_singleton] at hb
  subst hb
  exact h

/-- C3: no lost updates.  Writer A updates entry `e1`, writer B — having
loaded the same snapshot at version `v` — updates entry `e2`.  A's write
succeeds and advances the store to version `v+1`; B's first
`conditionalSave` hits the version conflict, so B reloads the fresh state
(containing A's change) and re-applies its mutation, saving at `v+2`.
Each attempt sequence persists at most one write, and the final stored
list carries both changes. -/
theorem no_lost_updates
    (e1 e2 : WaitingListEntry) (dA dB : Int) (ambId ambName : String) (v k : Nat)
    (h12 : e1.id ≠ e2.id) (h1 : e1.id ≠ "") (h2 : e2.id ≠ "")
    (hws : e1.waitingSince ≤ e2.waitingSince)
    (hdA : 0 < dA) (hdB : 0 < dB) :
    (∀ (mutate : Ambulance → MutResult) (store : Store) (retries : Nat)
        (loaded : Ambulance) (lv : Nat),
      (runUpdateFrom mutate store loaded lv retries).1 = store
        ∨ (runUpdateFrom mutate store loaded lv retries).1.version
            = store.version + 1)
    ∧ (runUpdate (updateWaitingListEntry (some ⟨"", "", 0, dA⟩) e1.id)
        ⟨⟨ambId, ambName, some [e1, e2]⟩, v⟩ k).1
      = ⟨⟨ambId, ambName, some [{ e1 with estimatedDurationMinutes := dA }, e2]⟩,
          v + 1⟩
    ∧ (runUpdateFrom (updateWaitingListEntry (some ⟨"", "", 0, dB⟩) e2.id)
        ⟨⟨ambId, ambName, some [{ e1 with estimatedDurationMinutes := dA }, e2]⟩,
          v + 1⟩
        ⟨ambId, ambName, some [e1, e2]⟩ v (k + 1)).1
      = ⟨⟨ambId, ambName, some [{ e1 with estimatedDurationMinutes := dA },
          { e2 with estimatedDurationMinutes := dB }]⟩, v + 2⟩ := by
  have hb11 : (e1.id == e1.id) = true := beq_self_eq_true _
  have hb22 : (e2.id == e2.id) = true := beq_self_eq_true _
  have hb21 : (e2.id == e1.id) = false := beq_eq_false_iff_ne.mpr (Ne.symm h12)
  have hset1 : ∀ (x y m : WaitingListEntry), [x, y].set 1 m = [x, m] :=
    fun _ _ _ => rfl
  have hgd1 : ∀ (x y : WaitingListEntry), [x, y].getD 1 dummyEntry = y :=
    fun _ _ => rfl
  have hm1 : mergeEntry e1 ⟨"", "", 0, dA⟩
      = { e1 with estimatedDurationMinutes := dA } := by
    simp [mergeEntry, hdA]
  have hm2 : mergeEntry e2 ⟨"", "", 0, dB⟩
      = { e2 with estimatedDurationMinutes := dB } := by
    simp [mergeEntry, hdB]
  have hrecA : reconcileWaitingList [{ e1 with estimatedDurationMinutes := dA }, e2]
      = [{ e1 with estimatedDurationMinutes := dA }, e2] :=
    reconcile_eq_of_sorted (sorted_pair hws)
  have hrecB0 : reconcileWaitingList [e1, { e2 with estimatedDurationMinutes := dB }]
      = [e1, { e2 with estimatedDurationMinutes := dB }] :=
    reconcile_eq_of_sorted (sorted_pair hws)
  have hrecB1 : reconcileWaitingList [{ e1 with estimatedDurationMinutes := dA },
        { e2 with estimatedDurationMinutes := dB }]
      = [{ e1 with estimatedDurationMinutes := dA },
        { e2 with estimatedDurationMinutes := dB }] :=
    reconcile_eq_of_sorted (sorted_pair hws)
  have hidxA : (([e1, e2] : List WaitingListEntry).findIdx
      fun waiting => e1.id == waiting.id) = 0 := by
    simp only [findIdx_cons, hb11, cond_true]
  have hidxB0 : (([e1, e2] : List WaitingListEntry).findIdx
      fun waiting => e2.id == waiting.id) = 1 := by
    simp only [findIdx_cons, hb21, hb22, cond_false, cond_true]
  have hidxB1 : (([{ e1 with estimatedDurationMinutes := dA }, e2] :
      List WaitingListEntry).findIdx fun waiting => e2.id == waiting.id) = 1 := by
    simp only [findIdx_cons, hb21, hb22, cond_false, cond_true]
  have hA : updateWaitingListEntry (some ⟨"", "", 0, dA⟩) e1.id
      ⟨ambId, ambName, some [e1, e2]⟩
      = ⟨some ⟨ambId, ambName,
          some [{ e1 with estimatedDurationMinutes := dA }, e2]⟩,
          Payload.entry { e1 with estimatedDurationMinutes := dA }, 200⟩ := by
    have hlt : ((Ambulance.mk ambId ambName (some [e1, e2])).wl.findIdx
        fun waiting => e1.id == waiting.id)
        < (Ambulance.mk ambId ambName (some [e1, e2])).wl.length := by
      simp only [wl_some, hidxA, length_cons, length_singleton]
      exact Nat.zero_lt_succ 1
    rw [update_found_eq _ _ _ h1 hlt]
    simp only [wl_some, hidxA, getD_cons_zero, set_cons_zero, hm1, hrecA]
  have hB0 : updateWaitingListEntry (some ⟨"", "", 0, dB⟩) e2.id
      ⟨ambId, ambName, some [e1, e2]⟩
      = ⟨some ⟨ambId, ambName,
          some [e1, { e2 with estimatedDurationMinutes := dB }]⟩,
          Payload.entry { e2 with estimatedDurationMinutes := dB }, 200⟩ := by
    have hlt : ((Ambulance.mk ambId ambName (some [e1, e2])).wl.findIdx
        fun waiting => e2.id == waiting.id)
        < (Ambulance.mk ambId ambName (some [e1, e2])).wl.length := by
      simp only [wl_some, hidxB0, length_cons, length_singleton]
      exact Nat.lt_succ_self 1
    rw [update_found_eq _ _ _ h2 hlt]
    simp only [wl_some, hidxB0, hgd1, hm2, hset1, hrecB0]
  have hB1 : updateWaitingListEntry (some ⟨"", "", 0, dB⟩) e2.id
      ⟨ambId, ambName, some [{ e1 with estimatedDurationMinutes := dA }, e2]⟩
      = ⟨some ⟨ambId, ambName,
          some [{ e1 with estimatedDurationMinutes := dA },
            { e2 with estimatedDurationMinutes := dB }]⟩,
          Payload.entry { e2 with estimatedDurationMinutes := dB }, 200⟩ := by
    have hlt : ((Ambulance.mk ambId ambName
        (some [{ e1 with estimatedDurationMinutes := dA }, e2])).wl.findIdx
        fun waiting => e2.id == waiting.id)
        < (Ambulance.mk ambId ambName
          (some [{ e1 with estimatedDurationMinutes := dA }, e2])).wl.length := by
      simp only [wl_some, hidxB1, length_cons, length_singleton]
      exact Nat.lt_succ_self 1
    rw [update_found_eq _ _ _ h2 hlt]
    simp only [wl_some, hidxB1, hgd1, hm2, hset1, hrecB1]
  refine ⟨runUpdateFrom_writes_at_most_once, ?_, ?_⟩
  · rw [runUpdate, runUpdateFrom.eq_def]
    simp only [hA, if_true]
  · rw [runUpdateFrom.eq_def]
    simp only [hB0]
    rw [if_neg (Nat.ne_of_lt (Nat.lt_succ_self v))]
    rw [runUpdateFrom.eq_def]
    simp only [hB1, if_true]

/-- Witness for the amended C2: all five conjuncts at concrete inputs —
a create, a delete and a duration-only update on small lists, plus the
two read-only operations. -/
theorem uniqueness_amended_witness :
    (uniqueIds (Ambulance.wl ⟨"a1", "Acute",
        some [⟨"e1", "P1", 1, 5⟩, ⟨"g2", "P2", 2, 5⟩]⟩)
      ∧ uniquePatientIds (Ambulance.wl ⟨"a1", "Acute",
        some [⟨"e1", "P1", 1, 5⟩, ⟨"g2", "P2", 2, 5⟩]⟩))
    ∧ (uniqueIds (Ambulance.wl ⟨"a1", "Acute", some []⟩)
      ∧ uniquePatientIds (Ambulance.wl ⟨"a1", "Acute", some []⟩))
    ∧ (uniqueIds (Ambulance.wl ⟨"a1", "Acute", some [⟨"e1", "P1", 1, 9⟩]⟩)
      ∧ uniquePatientIds (Ambulance.wl ⟨"a1", "Acute", some [⟨"e1", "P1", 1, 9⟩]⟩))
    ∧ (getWaitingListEntries ⟨"a1", "Acute", some [⟨"e1", "P1", 1, 5⟩]⟩).ambulance
        = none
    ∧ (getWaitingListEntry "e1" ⟨"a1", "Acute", some [⟨"e1", "P1", 1, 5⟩]⟩).ambulance
        = none :=
  ⟨uniqueness_amended.1 "g2" (some ⟨"", "P2", 2, 5⟩)
      ⟨"a1", "Acute", some [⟨"e1", "P1", 1, 5⟩]⟩
      ⟨"a1", "Acute", some [⟨"e1", "P1", 1, 5⟩, ⟨"g2", "P2", 2, 5⟩]⟩
      (by decide) (by decide) (by decide),
    uniqueness_amended.2.1 "e1" ⟨"a1", "Acute", some [⟨"e1", "P1", 1, 5⟩]⟩
      ⟨"a1", "Acute", some []⟩ (by decide) (by decide) (by decide),
    uniqueness_amended.2.2.1 ⟨"", "", 0, 9⟩ "e1"
      ⟨"a1", "Acute", some [⟨"e1", "P1", 1, 5⟩]⟩
      ⟨"a1", "Acute", some [⟨"e1", "P1", 1, 9⟩]⟩
      (by decide) (by decide) (by decide) (by decide),
    uniqueness_amended.2.2.2.1 ⟨"a1", "Acute", some [⟨"e1", "P1", 1, 5⟩]⟩,
    uniqueness_amended.2.2.2.2 "e1" ⟨"a1", "Acute", some [⟨"e1", "P1", 1, 5⟩]⟩⟩

/-- Witness for C3: the forced-conflict interleaving at concrete data —
two entries `"a"` and `"b"`, writer A sets duration 7 on `"a"`, writer B
(loaded stale at version 0) sets duration 9 on `"b"`; the final store
holds both changes at version 2. -/
theorem no_lost_updates_witness :
    (runUpdate (updateWaitingListEntry (some ⟨"", "", 0, 7⟩) "a")
        ⟨⟨"a1", "Acute", some [⟨"a", "P1", 1, 5⟩, ⟨"b", "P2", 2, 5⟩]⟩, 0⟩ 1).1
      = ⟨⟨"a1", "Acute", some [⟨"a", "P1", 1, 7⟩, ⟨"b", "P2", 2, 5⟩]⟩, 1⟩
    ∧ (runUpdateFrom (updateWaitingListEntry (some ⟨"", "", 0, 9⟩) "b")
        ⟨⟨"a1", "Acute", some [⟨"a", "P1", 1, 7⟩, ⟨"b", "P2", 2, 5⟩]⟩, 1⟩
        ⟨"a1", "Acute", some [⟨"a", "P1", 1, 5⟩, ⟨"b", "P2", 2, 5⟩]⟩ 0 2).1
      = ⟨⟨"a1", "Acute", some [⟨"a", "P1", 1, 7⟩, ⟨"b", "P2", 2, 9⟩]⟩, 2⟩ := by
  have h := no_lost_updates ⟨"a", "P1", 1, 5⟩ ⟨"b", "P2", 2, 5⟩ 7 9 "a1" "Acute" 0 1
    (by decide) (by decide) (by decide) (by decide) (by decide) (by decide)
  exact ⟨h.2.1, h.2.2⟩
